import Mathlib

/-!
Shallow embedding of the RPN calculator (src/src/lib.rs): the expression
tree `Expr`, the recursive evaluator `Expr.eval`, the stack-based parser
`parse`, and the composite entry point `eval_str`, together with theorems
settling the specification claims.

Modelling conventions:
* Rust `i64` values are Lean `Int`s; the numeric-literal parser and the
  theorems impose the signed 64-bit range where the Rust type does.
* `+`, `-`, `*` on `i64` and the squaring `x * x` are embedded with
  two's-complement wraparound (`toI64`), the release-profile semantics that
  the specification fixes as the reference overflow behavior.
* Rust `/` on `i64` truncates toward zero and panics on overflow
  (`i64::MIN / -1`) in every build profile; a panic is modelled by the
  dedicated result constructor `overflow`, distinct from `Ok`/`Err`.
* Fallible functions return `Except`; a Rust `Result<T, E>` is
  `Except E T` with `Ok` as `.ok` and `Err` as `.error`.
-/

deriving instance DecidableEq for Except

namespace Rpn

/-- Rust `char::is_ascii_whitespace`: space, horizontal tab, newline,
form feed, carriage return (and nothing else; in particular not the
vertical tab `\x0b`). Used by `split_ascii_whitespace` in `parse`. -/
def isAsciiWs (c : Char) : Bool :=
  c = ' ' || c = '\t' || c = '\n' || c = '\x0c' || c = '\r'

/-- Helper for `tokenize`: walks the character list keeping the (reversed)
characters of the token currently being read in `acc`, emitting a token at
each whitespace boundary and at the end; empty tokens are never emitted,
so runs of whitespace act as a single separator. -/
def splitAux : List Char → List Char → List String
  | [], [] => []
  | [], acc => [String.mk acc.reverse]
  | c :: cs, acc =>
    if isAsciiWs c then
      match acc with
      | [] => splitAux cs []
      | _ => String.mk acc.reverse :: splitAux cs []
    else splitAux cs (c :: acc)

/-- Rust `str::split_ascii_whitespace`: the non-empty maximal runs of
non-whitespace characters, in order. -/
def tokenize (s : String) : List String :=
  splitAux s.data []

/-- Signed 64-bit bounds, as `Int`. -/
def i64Min : Int := -(2 ^ 63)

/-- Upper bound of the signed 64-bit range. -/
def i64Max : Int := 2 ^ 63 - 1

/-- Reduction of an integer into the signed 64-bit range modulo `2^64`:
two's-complement wraparound. -/
def toI64 (n : Int) : Int :=
  (n + 2 ^ 63) % 2 ^ 64 - 2 ^ 63

/-- Rust `i64::from_str` (the `word.parse::<i64>()` call in `parse`): an
optional single `+`/`-` sign followed by at least one ASCII decimal digit,
nothing else, with the resulting value required to fit in the signed
64-bit range. -/
def parseI64 (s : String) : Option Int :=
  let cs := s.data
  let signDigits : Int × List Char :=
    match cs with
    | '+' :: rest => (1, rest)
    | '-' :: rest => (-1, rest)
    | _ => (1, cs)
  let sign := signDigits.1
  let ds := signDigits.2
  if ds.isEmpty then none
  else if ds.all (fun c => c.isDigit) then
    let v : Int := sign * Int.ofNat (ds.foldl (fun acc c => acc * 10 + (c.toNat - 48)) 0)
    if i64Min ≤ v ∧ v ≤ i64Max then some v else none
  else none

/-- The expression tree `Expr` of src/src/lib.rs (boxes are immaterial in
the embedding). -/
inductive Expr where
  | Number : Int → Expr
  | Add : Expr → Expr → Expr
  | Sub : Expr → Expr → Expr
  | Sqr : Expr → Expr
  | Mul : Expr → Expr → Expr
  | Div : Expr → Expr → Expr
deriving DecidableEq

/-- The `EvalError` enum of src/src/lib.rs. -/
inductive EvalError where
  | DivisionByZero : EvalError
deriving DecidableEq

/-- Outcome of `Expr::eval`: a returned `Ok(v)`, a returned
`Err(e)`, or a Rust panic from the unconditional division-overflow check
(`i64::MIN / -1`), which escapes the `Result` type entirely. -/
inductive EvalResult where
  | ok : Int → EvalResult
  | err : EvalError → EvalResult
  | overflow : EvalResult
deriving DecidableEq

/-- `Expr::eval` of src/src/lib.rs. `Add`/`Sub`/`Mul` evaluate the left
child first and propagate its failure before touching the right child;
`Div` evaluates the divisor `y` first, fails with `DivisionByZero` when it
is zero, and only then evaluates the dividend `x`; `Sqr` multiplies the
operand's value by itself. `+`, `-`, `*` wrap on overflow (release-profile
semantics, the spec's fixed reference behavior); `/` truncates toward zero
and panics (`.overflow`) at exactly `i64::MIN / -1`. -/
def Expr.eval : Expr → EvalResult
  | .Number x => .ok x
  | .Add x y =>
    match x.eval with
    | .ok a =>
      match y.eval with
      | .ok b => .ok (toI64 (a + b))
      | r => r
    | r => r
  | .Sub x y =>
    match x.eval with
    | .ok a =>
      match y.eval with
      | .ok b => .ok (toI64 (a - b))
      | r => r
    | r => r
  | .Mul x y =>
    match x.eval with
    | .ok a =>
      match y.eval with
      | .ok b => .ok (toI64 (a * b))
      | r => r
    | r => r
  | .Div x y =>
    match y.eval with
    | .ok b =>
      if b = 0 then .err .DivisionByZero
      else
        match x.eval with
        | .ok a => if a = i64Min ∧ b = -1 then .overflow else .ok (Int.tdiv a b)
        | r => r
    | r => r
  | .Sqr x =>
    match x.eval with
    | .ok a => .ok (toI64 (a * a))
    | r => r

/-- The `ParseError` enum of src/src/lib.rs. -/
inductive ParseError where
  | InvalidInput : String → ParseError
  | WrongArgumentsCount : ParseError
  | EmptyInput : ParseError
  | LeftArguments : ParseError
deriving DecidableEq

/-- One iteration of the token loop in `parse`: the stack is a list with
its head as the top. A binary operator pops `x` (top) then `y` and pushes
`Op(y, x)`; `sqr` pops one operand; any other word is parsed as an `i64`
literal and pushed as `Number`, or rejected as `InvalidInput` carrying the
word verbatim. A failing pop yields `WrongArgumentsCount`. -/
def parseStep (stack : List Expr) (word : String) : Except ParseError (List Expr) :=
  if word = "-" then
    match stack with
    | x :: y :: rest => .ok (.Sub y x :: rest)
    | _ => .error .WrongArgumentsCount
  else if word = "+" then
    match stack with
    | x :: y :: rest => .ok (.Add y x :: rest)
    | _ => .error .WrongArgumentsCount
  else if word = "*" then
    match stack with
    | x :: y :: rest => .ok (.Mul y x :: rest)
    | _ => .error .WrongArgumentsCount
  else if word = "/" then
    match stack with
    | x :: y :: rest => .ok (.Div y x :: rest)
    | _ => .error .WrongArgumentsCount
  else if word = "sqr" then
    match stack with
    | x :: rest => .ok (.Sqr x :: rest)
    | _ => .error .WrongArgumentsCount
  else
    match parseI64 word with
    | some n => .ok (.Number n :: stack)
    | none => .error (.InvalidInput word)

/-- The token loop of `parse`: fold `parseStep` over the words, stopping
at the first error. -/
def runSteps : List String → List Expr → Except ParseError (List Expr)
  | [], st => .ok st
  | w :: ws, st =>
    match parseStep st w with
    | .ok st' => runSteps ws st'
    | .error e => .error e

/-- The body of `parse` after tokenization: run the loop from an empty
stack, then apply the final-stack check of src/src/lib.rs verbatim — more
than one element left is `LeftArguments`, otherwise pop, an empty stack
being `EmptyInput`. -/
def parseWords (ws : List String) : Except ParseError Expr :=
  match runSteps ws [] with
  | .error e => .error e
  | .ok st =>
    if 1 < st.length then .error .LeftArguments
    else
      match st with
      | [] => .error .EmptyInput
      | e :: _ => .ok e

/-- `parse` of src/src/lib.rs. -/
def parse (s : String) : Except ParseError Expr :=
  parseWords (tokenize s)

/-- The `ParseOrEvalError` enum of src/src/lib.rs. -/
inductive ParseOrEvalError where
  | Parse : ParseError → ParseOrEvalError
  | Eval : EvalError → ParseOrEvalError
deriving DecidableEq

/-- Outcome of `eval_str`: returned value, returned composite error, or a
panic propagated from `Expr::eval`. -/
inductive EvalStrResult where
  | ok : Int → EvalStrResult
  | err : ParseOrEvalError → EvalStrResult
  | overflow : EvalStrResult
deriving DecidableEq

/-- `eval_str` of src/src/lib.rs: `s.parse::<Expr>()?.eval()?`, the `?`
operator wrapping a `ParseError` as `ParseOrEvalError::Parse` and an
`EvalError` as `ParseOrEvalError::Eval` via the derived `From` impls. -/
def eval_str (s : String) : EvalStrResult :=
  match parse s with
  | .error e => .err (.Parse e)
  | .ok ex =>
    match ex.eval with
    | .ok v => .ok v
    | .err e => .err (.Eval e)
    | .overflow => .overflow

/-- The four binary operator tokens of the calculator. -/
def isBinaryOp (w : String) : Bool :=
  w = "-" || w = "+" || w = "*" || w = "/"

/-- Any recognized operator token, binary or the unary `sqr`. -/
def isOpToken (w : String) : Bool :=
  isBinaryOp w || w = "sqr"

/-- Well-formedness of an RPN token stream relative to a current stack
depth `d`: every token is a recognized operator finding at least its arity
on the stack, or a valid `i64` literal, and exactly one expression remains
at the end. `wf ws 0` is the claims' notion of a well-formed input. -/
def wf : List String → Nat → Bool
  | [], d => d == 1
  | w :: ws, d =>
    if isBinaryOp w then decide (2 ≤ d) && wf ws (d - 1)
    else if w = "sqr" then decide (1 ≤ d) && wf ws d
    else (parseI64 w).isSome && wf ws (d + 1)

/-- Splitting a list of whitespace characters emits no token. -/
theorem splitAux_all_ws (cs : List Char) (h : ∀ c ∈ cs, isAsciiWs c = true) :
    splitAux cs [] = [] := by
  induction cs with
  | nil => rfl
  | cons c cs ih =>
    have hc : isAsciiWs c = true := h c (List.mem_cons_self c cs)
    have hrest := ih fun c' hc' => h c' (List.mem_cons_of_mem c hc')
    simp [splitAux, hc, hrest]

/-- A mid-stream error in the token loop is the result of the whole
parse. -/
theorem parseWords_error (ws : List String) (e : ParseError)
    (h : runSteps ws [] = .error e) : parseWords ws = .error e := by
  simp [parseWords, h]

/-- Running the token loop over a concatenation runs the two halves in
sequence, stopping at the first error. -/
theorem runSteps_append (a b : List String) (st : List Expr) :
    runSteps (a ++ b) st =
      match runSteps a st with
      | .ok st' => runSteps b st'
      | .error e => .error e := by
  induction a generalizing st with
  | nil => rfl
  | cons w ws ih =>
    simp only [List.cons_append, runSteps]
    cases parseStep st w with
    | ok st' => exact ih st'
    | error e => rfl

/-- A binary operator applied to a stack with fewer than two expressions
fails with `WrongArgumentsCount`. -/
theorem parseStep_binary_short (w : String) (st : List Expr)
    (hw : isBinaryOp w = true) (hlen : st.length < 2) :
    parseStep st w = .error .WrongArgumentsCount := by
  simp only [isBinaryOp, Bool.or_eq_true, decide_eq_true_eq] at hw
  rcases hw with ((h | h) | h) | h <;> subst h <;>
    (cases st with
     | nil => rfl
     | cons x t =>
       cases t with
       | nil => rfl
       | cons y t' => simp at hlen; omega)

/-- A token stream that is well-formed relative to the current stack depth
drives the token loop to completion with exactly one expression left. -/
theorem runSteps_wf (ws : List String) :
    ∀ st : List Expr, wf ws st.length = true → ∃ e, runSteps ws st = .ok [e] := by
  induction ws with
  | nil =>
    intro st h
    simp only [wf, beq_iff_eq] at h
    obtain ⟨e, he⟩ := List.length_eq_one.mp h
    subst he
    exact ⟨e, rfl⟩
  | cons w ws ih =>
    intro st h
    simp only [wf] at h
    by_cases hb : isBinaryOp w = true
    · rw [if_pos hb, Bool.and_eq_true, decide_eq_true_eq] at h
      obtain ⟨hlen, hwf⟩ := h
      cases st with
      | nil => simp at hlen
      | cons x t =>
        cases t with
        | nil => simp at hlen
        | cons y rest =>
          have hred : ∃ z, parseStep (x :: y :: rest) w = .ok (z :: rest) := by
            simp only [isBinaryOp, Bool.or_eq_true, decide_eq_true_eq] at hb
            rcases hb with ((h1 | h1) | h1) | h1 <;> subst h1
            · exact ⟨.Sub y x, rfl⟩
            · exact ⟨.Add y x, rfl⟩
            · exact ⟨.Mul y x, rfl⟩
            · exact ⟨.Div y x, rfl⟩
          obtain ⟨z, hz⟩ := hred
          obtain ⟨e, he⟩ := ih (z :: rest) (by simpa using hwf)
          exact ⟨e, by simp [runSteps, hz, he]⟩
    · by_cases hs : w = "sqr"
      · rw [if_neg hb, if_pos hs, Bool.and_eq_true, decide_eq_true_eq] at h
        obtain ⟨hlen, hwf⟩ := h
        cases st with
        | nil => simp at hlen
        | cons x rest =>
          subst hs
          obtain ⟨e, he⟩ := ih (Expr.Sqr x :: rest) (by simpa using hwf)
          exact ⟨e, by simp [runSteps, parseStep, he]⟩
      · rw [if_neg hb, if_neg hs, Bool.and_eq_true, Option.isSome_iff_exists] at h
        obtain ⟨⟨n, hn⟩, hwf⟩ := h
        simp only [isBinaryOp, Bool.or_eq_true, decide_eq_true_eq, not_or] at hb
        obtain ⟨⟨⟨h1, h2⟩, h3⟩, h4⟩ := hb
        obtain ⟨e, he⟩ := ih (Expr.Number n :: st) (by simpa using hwf)
        exact ⟨e, by simp [runSteps, parseStep, h1, h2, h3, h4, hs, hn, he]⟩

/-- A well-formed token stream parses to a single expression. -/
theorem parseWords_wf (ws : List String) (h : wf ws 0 = true) :
    ∃ e, parseWords ws = .ok e := by
  obtain ⟨e, he⟩ := runSteps_wf ws [] (by simpa using h)
  exact ⟨e, by simp [parseWords, he]⟩

/-- C1: whenever the next token is a binary operator and the operand stack
holds at least two expressions, `parse` pops `x` (top) then `y`
(second-from-top) and pushes `Op(y, x)`, making the later-pushed operand
`y` the left child and `x` the right child; in particular parsing and then
evaluating the text "2 1 -" yields `Ok(1)`. -/
theorem C1_binary_operand_order :
    (∀ (x y : Expr) (rest : List Expr),
        parseStep (x :: y :: rest) "-" = .ok (.Sub y x :: rest) ∧
        parseStep (x :: y :: rest) "+" = .ok (.Add y x :: rest) ∧
        parseStep (x :: y :: rest) "*" = .ok (.Mul y x :: rest) ∧
        parseStep (x :: y :: rest) "/" = .ok (.Div y x :: rest)) ∧
    parse "2 1 -" = .ok (.Sub (.Number 2) (.Number 1)) ∧
    eval_str "2 1 -" = .ok 1 :=
  ⟨fun _ _ _ => ⟨rfl, rfl, rfl, rfl⟩, rfl, by decide⟩

/-- C2 counterexample: the divisor `-1` is nonzero, yet with dividend
`i64::MIN` the evaluator does not return the quotient — the division
panics — refuting the claim's "otherwise it evaluates l and returns the
quotient" at that input. -/
theorem C2_counterexample :
    (Expr.Number (-1) : Expr).eval = .ok (-1) ∧ (-1 : Int) ≠ 0 ∧
    (Expr.Div (Expr.Number i64Min) (Expr.Number (-1))).eval ≠
      .ok (Int.tdiv i64Min (-1)) ∧
    (Expr.Div (Expr.Number i64Min) (Expr.Number (-1))).eval = .overflow := by
  decide

/-- C2 amended: `Div(l, r)` evaluates the divisor `r` first; a zero
divisor yields `Err(DivisionByZero)` whatever `l` is (so an error inside
`l` is never observed); a nonzero divisor leads to evaluating `l` and
returning the quotient, except at dividend `i64::MIN` with divisor `-1`,
where the division overflows and panics instead of returning; and
"-1 0 /" parses and evaluates to `Err(DivisionByZero)`. -/
theorem C2_div_checks_divisor_first :
    (∀ l r : Expr, r.eval = .ok 0 → (Expr.Div l r).eval = .err .DivisionByZero) ∧
    (∀ (l r : Expr) (a b : Int), l.eval = .ok a → r.eval = .ok b → b ≠ 0 →
        ¬(a = i64Min ∧ b = -1) → (Expr.Div l r).eval = .ok (Int.tdiv a b)) ∧
    (∀ l r : Expr, l.eval = .ok i64Min → r.eval = .ok (-1) →
        (Expr.Div l r).eval = .overflow) ∧
    eval_str "-1 0 /" = .err (.Eval .DivisionByZero) := by
  refine ⟨?_, ?_, ?_, by decide⟩
  · intro l r hr
    simp [Expr.eval, hr]
  · intro l r a b hl hr hb hmin
    simp [Expr.eval, hl, hr, hb, hmin]
  · intro l r hl hr
    simp [Expr.eval, hl, hr]

/-- C2 witness: the zero-divisor branch at `l = Div(1, 0)` (an `l` that
would itself fail), the quotient branch at `7 / 2`, and the panic branch
at `i64::MIN / -1`. -/
theorem C2_witness :
    (Expr.Div (Expr.Div (Expr.Number 1) (Expr.Number 0)) (Expr.Number 0)).eval =
      .err .DivisionByZero ∧
    (Expr.Div (Expr.Number 7) (Expr.Number 2)).eval = .ok (Int.tdiv 7 2) ∧
    (Expr.Div (Expr.Number i64Min) (Expr.Number (-1))).eval = .overflow :=
  ⟨C2_div_checks_divisor_first.1 (Expr.Div (Expr.Number 1) (Expr.Number 0))
      (Expr.Number 0) rfl,
    C2_div_checks_divisor_first.2.1 (Expr.Number 7) (Expr.Number 2) 7 2 rfl rfl
      (by decide) (by decide),
    C2_div_checks_divisor_first.2.2.1 (Expr.Number i64Min) (Expr.Number (-1))
      rfl rfl⟩

/-- C3 counterexample: dividing `i64::MIN` by `-1` does not produce the
mathematical result `2^63` reduced into the signed 64-bit range (which
would be `i64::MIN` itself): Rust checks division overflow in every build
profile, so `eval` panics there instead of wrapping. -/
theorem C3_counterexample :
    (Expr.Div (Expr.Number i64Min) (Expr.Number (-1))).eval = .overflow ∧
    (Expr.Div (Expr.Number i64Min) (Expr.Number (-1))).eval ≠ .ok (toI64 (2 ^ 63)) := by
  decide

/-- C3 amended: `Add`, `Sub`, `Mul` and `Square` wrap on overflow — the
result is the mathematical result reduced modulo `2^64` into the signed
64-bit range, e.g. squaring `i64::MAX` gives `1` — but division does not
wrap: `i64::MIN / -1` panics instead of returning the wrapped quotient. -/
theorem C3_wraparound :
    (∀ (l r : Expr) (a b : Int), l.eval = .ok a → r.eval = .ok b →
        (Expr.Add l r).eval = .ok (toI64 (a + b)) ∧
        (Expr.Sub l r).eval = .ok (toI64 (a - b)) ∧
        (Expr.Mul l r).eval = .ok (toI64 (a * b))) ∧
    (∀ (x : Expr) (a : Int), x.eval = .ok a → (Expr.Sqr x).eval = .ok (toI64 (a * a))) ∧
    (Expr.Sqr (Expr.Number i64Max)).eval = .ok 1 ∧
    (Expr.Div (Expr.Number i64Min) (Expr.Number (-1))).eval = .overflow := by
  refine ⟨?_, ?_, by decide, by decide⟩
  · intro l r a b hl hr
    refine ⟨?_, ?_, ?_⟩ <;> simp [Expr.eval, hl, hr]
  · intro x a hx
    simp [Expr.eval, hx]

/-- C3 witness: wraparound observed at `i64::MAX + 1` and at squaring
`i64::MAX`. -/
theorem C3_witness :
    (Expr.Add (Expr.Number i64Max) (Expr.Number 1)).eval = .ok (toI64 (i64Max + 1)) ∧
    (Expr.Sqr (Expr.Number i64Max)).eval = .ok (toI64 (i64Max * i64Max)) :=
  ⟨(C3_wraparound.1 (Expr.Number i64Max) (Expr.Number 1) i64Max 1 rfl rfl).1,
    C3_wraparound.2.1 (Expr.Number i64Max) i64Max rfl⟩

/-- C4 counterexample: "-9223372036854775808 -1 /" is a well-formed RPN
string (every prefix supplies each operator's arity and exactly one
expression remains), and `parse` succeeds on it, yet evaluating the
resulting tree panics on division overflow — an outcome that is neither a
numeric result nor an `EvalError`. -/
theorem C4_counterexample :
    wf (tokenize "-9223372036854775808 -1 /") 0 = true ∧
    parse "-9223372036854775808 -1 /" =
      .ok (Expr.Div (Expr.Number i64Min) (Expr.Number (-1))) ∧
    (Expr.Div (Expr.Number i64Min) (Expr.Number (-1))).eval = .overflow ∧
    eval_str "-9223372036854775808 -1 /" = .overflow :=
  ⟨by decide, rfl, by decide, by decide⟩

/-- C4 amended: on every well-formed RPN token stream `parse` succeeds
with an expression tree, and `eval` on any tree terminates with a numeric
result, an `EvalError`, or a panic from the division-overflow check
(`i64::MIN / -1`) — there is no fourth outcome. -/
theorem C4_wellformed_parse_eval :
    (∀ s : String, wf (tokenize s) 0 = true → ∃ e, parse s = .ok e) ∧
    (∀ e : Expr,
        (∃ v, e.eval = .ok v) ∨ (∃ er, e.eval = .err er) ∨ e.eval = .overflow) := by
  refine ⟨fun s hs => parseWords_wf (tokenize s) hs, fun e => ?_⟩
  cases h : e.eval with
  | ok v => exact Or.inl ⟨v, rfl⟩
  | err er => exact Or.inr (Or.inl ⟨er, rfl⟩)
  | overflow => exact Or.inr (Or.inr rfl)

/-- C4 witness: the well-formed input "3 4 +" parses successfully. -/
theorem C4_witness : ∃ e, parse "3 4 +" = .ok e :=
  C4_wellformed_parse_eval.1 "3 4 +" (by decide)

/-- C5: `eval_str` is `parse` followed by `eval`: a parse error `e` comes
back as `Parse e`, an evaluation error `e` comes back as `Eval e` — the
wrapped payload being the original error value unaltered — and a
successful evaluation comes back as the numeric result. -/
theorem C5_eval_str_composition :
    (∀ (s : String) (e : ParseError),
        parse s = .error e → eval_str s = .err (.Parse e)) ∧
    (∀ (s : String) (ex : Expr) (e : EvalError),
        parse s = .ok ex → ex.eval = .err e → eval_str s = .err (.Eval e)) ∧
    (∀ (s : String) (ex : Expr) (v : Int),
        parse s = .ok ex → ex.eval = .ok v → eval_str s = .ok v) := by
  refine ⟨?_, ?_, ?_⟩ <;> intros <;> simp [eval_str, *]

/-- C5 witness: all three branches at concrete inputs — a parse error, an
evaluation error, and a success. -/
theorem C5_witness :
    eval_str "something" = .err (.Parse (.InvalidInput "something")) ∧
    eval_str "-1 0 /" = .err (.Eval .DivisionByZero) ∧
    eval_str "3 4 +" = .ok 7 :=
  ⟨C5_eval_str_composition.1 "something" (.InvalidInput "something") (by decide),
    C5_eval_str_composition.2.1 "-1 0 /"
      (Expr.Div (Expr.Number (-1)) (Expr.Number 0)) .DivisionByZero (by decide)
      (by decide),
    C5_eval_str_composition.2.2 "3 4 +"
      (Expr.Add (Expr.Number 3) (Expr.Number 4)) 7 (by decide) (by decide)⟩

/-- C6: after the token loop finishes without a mid-stream error, a stack
with more than one expression yields `LeftArguments`, an empty stack
yields `EmptyInput`, and a singleton stack yields its sole expression; in
particular the empty string gives `EmptyInput` and "1 1" gives
`LeftArguments`. -/
theorem C6_final_stack_check :
    (∀ (ws : List String) (st : List Expr), runSteps ws [] = .ok st →
        (1 < st.length → parseWords ws = .error .LeftArguments) ∧
        (st = [] → parseWords ws = .error .EmptyInput) ∧
        (∀ e, st = [e] → parseWords ws = .ok e)) ∧
    parse "" = .error .EmptyInput ∧
    parse "1 1" = .error .LeftArguments := by
  refine ⟨?_, rfl, rfl⟩
  intro ws st h
  refine ⟨fun hlen => ?_, fun hnil => ?_, fun e he => ?_⟩
  · simp only [parseWords, h, if_pos hlen]
  · subst hnil
    simp [parseWords, h]
  · subst he
    simp [parseWords, h]

/-- C6 witness: the loop on "1 1" leaves two expressions, and the
final-stack check turns that into `LeftArguments`. -/
theorem C6_witness : parseWords ["1", "1"] = .error .LeftArguments :=
  (C6_final_stack_check.1 ["1", "1"] [Expr.Number 1, Expr.Number 1] rfl).1
    (by decide)

/-- C7: a binary operator reached with fewer than two expressions on the
stack, or `sqr` reached with an empty stack, makes the whole parse fail
with `WrongArgumentsCount`, wherever in the token stream it happens; in
particular "1 +" fails that way. -/
theorem C7_wrong_arguments_count :
    (∀ (w : String) (st : List Expr), isBinaryOp w = true → st.length < 2 →
        parseStep st w = .error .WrongArgumentsCount) ∧
    parseStep [] "sqr" = .error .WrongArgumentsCount ∧
    (∀ (ws1 ws2 : List String) (w : String) (st : List Expr),
        runSteps ws1 [] = .ok st →
        (isBinaryOp w = true ∧ st.length < 2) ∨ (w = "sqr" ∧ st = []) →
        parseWords (ws1 ++ w :: ws2) = .error .WrongArgumentsCount) ∧
    parse "1 +" = .error .WrongArgumentsCount := by
  refine ⟨parseStep_binary_short, rfl, ?_, rfl⟩
  intro ws1 ws2 w st h hcase
  have hstep : parseStep st w = .error .WrongArgumentsCount := by
    rcases hcase with ⟨hw, hlen⟩ | ⟨hw, hnil⟩
    · exact parseStep_binary_short w st hw hlen
    · subst hw; subst hnil; rfl
  apply parseWords_error
  rw [runSteps_append, h]
  simp [runSteps, hstep]

/-- C7 witness: "1 +" reaches the binary `+` with a single expression on
the stack and the whole parse fails with `WrongArgumentsCount`. -/
theorem C7_witness : parseWords (["1"] ++ "+" :: []) = .error .WrongArgumentsCount :=
  C7_wrong_arguments_count.2.2.1 ["1"] [] "+" [Expr.Number 1] rfl
    (Or.inl ⟨by decide, by decide⟩)

/-- C8: a token that is none of `+`, `-`, `*`, `/`, `sqr` is pushed as
`Number(v)` when it parses as a signed 64-bit literal, and otherwise
aborts the whole parse with `InvalidInput` carrying the token verbatim; in
particular "something" fails with `InvalidInput("something")`. -/
theorem C8_number_or_invalid :
    (∀ (w : String) (st : List Expr) (n : Int), isOpToken w = false →
        parseI64 w = some n → parseStep st w = .ok (.Number n :: st)) ∧
    (∀ (w : String) (st : List Expr), isOpToken w = false →
        parseI64 w = none → parseStep st w = .error (.InvalidInput w)) ∧
    (∀ (ws1 ws2 : List String) (w : String) (st : List Expr),
        runSteps ws1 [] = .ok st → isOpToken w = false → parseI64 w = none →
        parseWords (ws1 ++ w :: ws2) = .error (.InvalidInput w)) ∧
    parse "something" = .error (.InvalidInput "something") := by
  have hstep : ∀ (w : String) (st : List Expr), isOpToken w = false →
      parseStep st w =
        match parseI64 w with
        | some n => .ok (.Number n :: st)
        | none => .error (.InvalidInput w) := by
    intro w st hw
    simp only [isOpToken, isBinaryOp, Bool.or_eq_false_iff, decide_eq_false_iff_not] at hw
    obtain ⟨⟨⟨⟨h1, h2⟩, h3⟩, h4⟩, h5⟩ := hw
    simp [parseStep, h1, h2, h3, h4, h5]
  refine ⟨?_, ?_, ?_, rfl⟩
  · intro w st n hw hn
    rw [hstep w st hw, hn]
  · intro w st hw hn
    rw [hstep w st hw, hn]
  · intro ws1 ws2 w st h hw hn
    apply parseWords_error
    rw [runSteps_append, h]
    simp [runSteps, hstep w st hw, hn]

/-- C8 witness: "12" is pushed as `Number 12`, "something" aborts the
parse of ["1", "something"] with `InvalidInput("something")`. -/
theorem C8_witness :
    parseStep [] "12" = .ok [Expr.Number 12] ∧
    parseWords (["1"] ++ "something" :: []) = .error (.InvalidInput "something") :=
  ⟨C8_number_or_invalid.1 "12" [] 12 (by decide) (by decide),
    C8_number_or_invalid.2.2.1 ["1"] [] "something" [Expr.Number 1] rfl
      (by decide) (by decide)⟩

/-- C9: an input made only of ASCII whitespace characters tokenizes to
zero tokens, and `parse` returns `EmptyInput` on it — e.g. on "   " and
on a tab-space-newline string, not just on the empty string. -/
theorem C9_whitespace_only :
    (∀ s : String, (∀ c ∈ s.data, isAsciiWs c = true) →
        tokenize s = [] ∧ parse s = .error .EmptyInput) ∧
    parse "   " = .error .EmptyInput ∧
    parse "\t \n" = .error .EmptyInput := by
  refine ⟨?_, rfl, rfl⟩
  intro s hs
  have ht : tokenize s = [] := splitAux_all_ws s.data hs
  have hp : parse s = parseWords (tokenize s) := rfl
  rw [hp, ht]
  exact ⟨rfl, rfl⟩

/-- C9 witness: the tab-space-newline string is all ASCII whitespace, so
it produces no tokens and parses to `EmptyInput`. -/
theorem C9_witness :
    tokenize "\t \n" = [] ∧ parse "\t \n" = .error .EmptyInput :=
  C9_whitespace_only.1 "\t \n" (by decide)

/-- C10 counterexample: the truncated quotient of `i64::MIN` by the
nonzero divisor `-1` is `2^63`, but the evaluator does not return it — the
division panics — so "For every Div(l, r) where r evaluates to a nonzero
value, evaluate returns the integer quotient truncated toward zero" fails
at dividend `i64::MIN`, divisor `-1`. -/
theorem C10_counterexample :
    Int.tdiv i64Min (-1) = 2 ^ 63 ∧
    (Expr.Div (Expr.Number i64Min) (Expr.Number (-1))).eval ≠
      .ok (Int.tdiv i64Min (-1)) ∧
    (Expr.Div (Expr.Number i64Min) (Expr.Number (-1))).eval = .overflow := by
  decide

/-- C10 amended: with a nonzero divisor, `Div` evaluates to the quotient
truncated toward zero, except at dividend `i64::MIN` with divisor `-1`,
where the division panics instead of returning — `7 / 2 = 3` and
`-7 / 2 = -3`, which differs from floor division. -/
theorem C10_truncated_division :
    (∀ (l r : Expr) (a b : Int), l.eval = .ok a → r.eval = .ok b → b ≠ 0 →
        ¬(a = i64Min ∧ b = -1) → (Expr.Div l r).eval = .ok (Int.tdiv a b)) ∧
    (Expr.Div (Expr.Number i64Min) (Expr.Number (-1))).eval = .overflow ∧
    (Expr.Div (Expr.Number 7) (Expr.Number 2)).eval = .ok 3 ∧
    (Expr.Div (Expr.Number (-7)) (Expr.Number 2)).eval = .ok (-3) ∧
    (Expr.Div (Expr.Number (-7)) (Expr.Number 2)).eval ≠ .ok (Int.fdiv (-7) 2) := by
  refine ⟨?_, by decide, by decide, by decide, by decide⟩
  intro l r a b hl hr hb hmin
  simp [Expr.eval, hl, hr, hb, hmin]

/-- C10 witness: truncated division observed on a negative dividend. -/
theorem C10_witness :
    (Expr.Div (Expr.Number (-7)) (Expr.Number 2)).eval = .ok (Int.tdiv (-7) 2) :=
  C10_truncated_division.1 (Expr.Number (-7)) (Expr.Number 2) (-7) 2 rfl rfl
    (by decide) (by decide)

end Rpn
